import Mathlib

/-!
# Verification of the Stream File Transfer relay operation

Shallow embedding of `src/nodes/StreamFileTransfer/actions/transferFile.operation.ts`
(the `execute` function) from the `n8n-nodes-stream-file-transfer` package,
together with theorems settling the specification's claims about it.

Modelling conventions:
* JS header records (`Record<string, string>`) are association lists with
  JS-object semantics: exact-key lookup, in-place override on assignment.
* JS truthiness of strings is non-emptiness; of numbers, non-zeroness.
* The host transport (`this.helpers.request`) is an oracle supplying the
  download and upload responses (`Except` for transport rejection).
* `JSON.parse` of the upload response body is an abstract parameter
  `jparse : String → Option Json` (success means valid JSON text).
* Header params are modelled post-`parseHeaders` (per the spec, `parseHeaders`
  returns an object mapping verbatim); `extractBearerToken` lives in
  `GenericFunctions.ts`, which is not part of the provided sources, and is
  modelled from the spec below.
-/

/-- JS-object-style header map: list of (key, value) in insertion order. -/
abbrev HMap := List (String × String)

/-- Exact-key lookup, like JS `obj[k]` (first matching key; JS objects have unique keys). -/
def hGet (m : HMap) (k : String) : Option String :=
  match m with
  | [] => none
  | (k', v) :: rest => if k' = k then some v else hGet rest k

/-- JS `obj[k] = v`: override in place if the key exists, else append. -/
def hSet (m : HMap) (k v : String) : HMap :=
  match m with
  | [] => [(k, v)]
  | (k', v') :: rest =>
      if k' = k then (k, v) :: rest else (k', v') :: hSet rest k v

/-- JS object spread `{...a, ...b}`: assign each entry of `b` onto `a` in order. -/
def hMerge (a b : HMap) : HMap := b.foldl (fun acc p => hSet acc p.1 p.2) a

/-- JS truthiness of `obj[k]`: key present with a non-empty string value. -/
def hTruthy (m : HMap) (k : String) : Bool :=
  match hGet m k with
  | some v => v ≠ ""
  | none => false

/-- JS `s.substring(0, n)`. -/
def sTake (s : String) (n : Nat) : String := String.mk (s.toList.take n)

/-- JS `s.trim()`: strip leading and trailing whitespace. -/
def jsTrim (s : String) : String :=
  String.mk (((s.toList.dropWhile Char.isWhitespace).reverse.dropWhile
    Char.isWhitespace).reverse)

/-- ASCII lowercasing of one character (as JS header-name comparisons would). -/
def lowerChar (c : Char) : Char :=
  if 'A' ≤ c ∧ c ≤ 'Z' then Char.ofNat (c.toNat + 32) else c

/-- ASCII lowercasing of a string, for case-insensitive header-name talk. -/
def lowerStr (s : String) : String := String.mk (s.toList.map lowerChar)

/-- Substring search over character lists. -/
def listContainsSub (pat : List Char) : List Char → Bool
  | [] => pat.isEmpty
  | c :: rest => pat.isPrefixOf (c :: rest) || listContainsSub pat rest

/-- JS `s.includes(pat)`: substring containment. -/
def strContains (s pat : String) : Bool := listContainsSub pat.toList s.toList

/-- JS `parseInt(s, 10)`: skip leading whitespace, optional sign, longest
digit prefix; `none` models `NaN`. -/
def jsParseInt (s : String) : Option Int :=
  let cs := s.toList.dropWhile Char.isWhitespace
  let signAndRest : Int × List Char :=
    match cs with
    | '-' :: rest => (-1, rest)
    | '+' :: rest => (1, rest)
    | _ => (1, cs)
  let ds := signAndRest.2.takeWhile Char.isDigit
  if ds.isEmpty then none
  else some (signAndRest.1 * (ds.foldl (fun a c => a * 10 + (c.toNat - 48)) 0 : Nat))

/-- Decoded JSON value (target of `JSON.parse` on the upload response body). -/
inductive Json where
  | null : Json
  | bool (b : Bool) : Json
  | num (n : Int) : Json
  | str (s : String) : Json
  | arr (elems : List Json) : Json
  | obj (fields : List (String × Json)) : Json

/-- The `contentLength` node parameter: `string | number` (default `''`). -/
inductive CLParam where
  | num (n : Int) : CLParam
  | str (s : String) : CLParam
deriving DecidableEq

/-- JS truthiness of the `contentLength` parameter. -/
def clTruthy : CLParam → Bool
  | .num n => n ≠ 0
  | .str s => s ≠ ""

/-- `typeof contentLength === 'number' ? contentLength : parseInt(contentLength, 10)`;
`none` models `NaN`. -/
def clToLength : CLParam → Option Int
  | .num n => some n
  | .str s => jsParseInt s

/-- A response body as returned by the transport with `encoding: null`:
a Node `Buffer` of some byte length, a readable stream (has `.pipe`),
a string, a plain object (carrying its constructor name and its
`JSON.stringify` rendering), or `undefined`. -/
inductive BodyVal where
  | buffer (len : Nat) : BodyVal
  | stream : BodyVal
  | jstr (s : String) : BodyVal
  | jobj (ctorName stringified : String) : BodyVal
  | undef : BodyVal
deriving DecidableEq

/-- An HTTP response from `this.helpers.request` with `resolveWithFullResponse`. -/
structure Response where
  statusCode : Option Nat
  headers : HMap
  body : BodyVal

/-- The transport oracle: result of the download request, and of the upload
request should one be issued (`Except.error` models a rejected promise,
carrying the error's message). -/
structure Transport where
  download : Except String Response
  upload : Except String Response

/-- Node parameters consumed by `execute` (headers post-`parseHeaders`). -/
structure Params where
  downloadUrl : String
  uploadUrl : String
  contentLength : CLParam
  method : String
  downloadHeaders : HMap
  uploadHeaders : HMap
  throwOnError : Bool

/-- `uploadResponse` field of a success result: `JSON.parse`d structure or the
raw body value. -/
inductive UploadResp where
  | parsed (j : Json) : UploadResp
  | raw (b : BodyVal) : UploadResp

/-- The JSON result record returned by `execute` (fields absent = `none`). -/
structure ResultJson where
  success : Option Bool := none
  error : Option String := none
  downloadStatus : Option Nat := none
  uploadStatus : Option Nat := none
  downloadUrl : Option String := none
  uploadUrl : Option String := none
  uploadResponse : Option UploadResp := none

/-- Terminal behaviour of one invocation: a thrown `Error` (its message) or a
returned item (its `json` record). -/
inductive Outcome where
  | threw (msg : String) : Outcome
  | returned (r : ResultJson) : Outcome

/-- The upload request options actually passed to `this.helpers.request`
(body is the validated download stream). -/
structure UploadReq where
  method : String
  url : String
  headers : HMap
deriving DecidableEq

/-- Full observable behaviour of one invocation: the outcome, whether the
download request was issued, and the upload request options if one was issued. -/
structure ExecResult where
  outcome : Outcome
  downloadIssued : Bool
  uploadReq : Option UploadReq

/-- Split a character list on a separator character. -/
def splitOnChar (sep : Char) : List Char → List (List Char)
  | [] => [[]]
  | c :: rest =>
      match splitOnChar sep rest with
      | [] => [[c]]
      | cur :: more => if c = sep then [] :: cur :: more else (c :: cur) :: more

/-- Modelled from the spec: `extractBearerToken` (GenericFunctions.ts, not under
src/) parses the URL, inspects query parameters case-sensitively for a key named
`bearer`, and returns the token or `undefined`; it does not mutate the URL.
Here: take the part after the first `?` (dropping any `#` fragment), split on
`&`, and return the value of the first `bearer=` pair. -/
def extractBearerToken (url : String) : Option String :=
  match splitOnChar '?' url.toList with
  | [] => none
  | [_] => none
  | _ :: rest =>
      let query := (List.intercalate ['?'] rest).takeWhile (· ≠ '#')
      ((splitOnChar '&' query).filterMap (fun kv =>
        match splitOnChar '=' kv with
        | [] => none
        | k :: vs =>
            if k = "bearer".toList then some (String.mk (List.intercalate ['='] vs))
            else none)).head?

/-- `{Accept: '*/*', ...downloadHeaders}` (lines 111–114). -/
def finalDownloadHeaders (p : Params) : HMap :=
  hMerge [("Accept", "*/*")] p.downloadHeaders

/-- `{'Content-Type': 'application/octet-stream', ...uploadHeaders}` (lines 120–123). -/
def baseUploadHeaders (p : Params) : HMap :=
  hMerge [("Content-Type", "application/octet-stream")] p.uploadHeaders

/-- Bearer-token injection (lines 116–128): add `Authorization: Bearer <token>`
iff a truthy token was extracted and neither `finalUploadHeaders['Authorization']`
nor `finalUploadHeaders['authorization']` is truthy. -/
def uploadHeadersWithAuth (p : Params) : HMap :=
  let base := baseUploadHeaders p
  match extractBearerToken p.uploadUrl with
  | some t =>
      if t ≠ "" ∧ ¬hTruthy base "Authorization" ∧ ¬hTruthy base "authorization" then
        hSet base "Authorization" ("Bearer " ++ t)
      else base
  | none => base

/-- Explicit Content-Length tier (lines 130–136): if `contentLength` is truthy
and parses (number as-is, string via `parseInt`) to a positive value, set
`Content-Length` to its decimal string. -/
def uploadHeadersWithCL (p : Params) : HMap :=
  let h := uploadHeadersWithAuth p
  if clTruthy p.contentLength then
    match clToLength p.contentLength with
    | some l => if l > 0 then hSet h "Content-Length" (toString l) else h
    | none => h
  else h

/-- Download status failure message (line 154). -/
def downloadFailMsg (url : String) (sc : Nat) : String :=
  "Download failed with HTTP " ++ toString sc ++ " from " ++ url ++
  ". Please verify the download URL is accessible and returns a successful response."

/-- Buffered-response failure message (lines 192–197). -/
def bufferedMsg (url : String) (len : Nat) : String :=
  "Download response from " ++ url ++ " was buffered instead of streamed. " ++
  "The response body is a Buffer (" ++ toString len ++ " bytes), which means the entire file was loaded into memory. " ++
  "This defeats the purpose of streaming. Please ensure the download URL returns a stream. " ++
  "Check that 'Accept: */*' header is set and encoding is null."

/-- `typeof downloadStream` for the not-streamable diagnostic (line 202). -/
def jsTypeof : BodyVal → String
  | .buffer _ => "object"
  | .stream => "object"
  | .jstr _ => "string"
  | .jobj _ _ => "object"
  | .undef => "undefined"

/-- `downloadStream?.constructor?.name || 'unknown'` (line 203). -/
def jsCtorName : BodyVal → String
  | .buffer _ => "Buffer"
  | .stream => "IncomingMessage"
  | .jstr _ => "String"
  | .jobj c _ => if c = "" then "unknown" else c
  | .undef => "unknown"

/-- Body preview for the not-streamable diagnostic (lines 204–206):
`JSON.stringify(body).substring(0, 200)` for truthy objects, else
`String(body).substring(0, 200)`. -/
def jsPreview : BodyVal → String
  | .buffer _ => ""
  | .stream => ""
  | .jstr s => sTake s 200
  | .jobj _ st => sTake st 200
  | .undef => "undefined"

/-- Not-streamable failure message (lines 208–215). -/
def notStreamableMsg (url : String) (b : BodyVal) : String :=
  let preview := jsPreview b
  "Download response from " ++ url ++ " is not a streamable format. " ++
  "The response body type is: " ++ jsTypeof b ++ ", constructor: " ++ jsCtorName b ++ ". " ++
  (if preview ≠ "" then
    "Response preview: " ++ preview ++ (if preview.length ≥ 200 then "..." else "") ++ ". "
   else "") ++
  "This usually means the server returned JSON/text instead of binary data, or the response was parsed/buffered. " ++
  "Please ensure the download URL returns a binary stream. " ++
  "You may need to add headers like 'Accept: */*' to prevent automatic parsing."

/-- Upload status failure message (lines 236–237). -/
def uploadFailMsg (url : String) (sc : Nat) (method : String) : String :=
  "Upload failed with HTTP " ++ toString sc ++ " to " ++ url ++
  ". Please verify the upload URL is correct, authentication is valid, and the endpoint accepts " ++
  method ++ " requests."

/-- Catch-block message enrichment (lines 285–288): keep the message if it
already mentions `Download URL` or `Upload URL`, else wrap with both URLs. -/
def enhance (p : Params) (msg : String) : String :=
  if strContains msg "Download URL" ∨ strContains msg "Upload URL" then msg
  else
    "File transfer failed: " ++ msg ++ ". Download URL: " ++ p.downloadUrl ++
    ", Upload URL: " ++ p.uploadUrl

/-- `downloadStatusCode || 200` (JS: `undefined` and `0` are falsy). -/
def natOr (o : Option Nat) (d : Nat) : Nat :=
  match o with
  | some n => if n = 0 then d else n
  | none => d

/-- Inner behaviour of the `try` block: a normal `return` or a raise that the
outer `catch` will handle, each recording the upload request if issued. -/
inductive TryStep where
  | ret (r : ResultJson) (upReq : Option UploadReq) : TryStep
  | raise (msg : String) (upReq : Option UploadReq) : TryStep

/-- The effective upload headers after the response-header Content-Length tier
(lines 171–183): `contentLength || responseHeaders['content-length']`, used only
if truthy, no truthy `Content-Length` already set, and parsing to a positive value. -/
def uploadHeadersFinal (p : Params) (dresp : Response) : HMap :=
  let h := uploadHeadersWithCL p
  let actualCL : Option CLParam :=
    if clTruthy p.contentLength then some p.contentLength
    else
      match hGet dresp.headers "content-length" with
      | some s => some (.str s)
      | none => none
  match actualCL with
  | some v =>
      if clTruthy v ∧ ¬hTruthy h "Content-Length" then
        match clToLength v with
        | some l => if l > 0 then hSet h "Content-Length" (toString l) else h
        | none => h
      else h
  | none => h

/-- The `uploadResponse` value of a success record (lines 263–276): `JSON.parse`
attempted on string bodies, raw value on parse failure or non-string bodies. -/
def decodeUploadBody (jparse : String → Option Json) : BodyVal → Option UploadResp
  | .undef => none
  | .jstr s =>
      some (match jparse s with
            | some j => .parsed j
            | none => .raw (.jstr s))
  | b => some (.raw b)

/-- Lines 171–283 of the `try` block, after the download status check passed:
content-length from the response, stream validation, upload issue, upload
status check, success-result construction. -/
def afterStatus (jparse : String → Option Json) (p : Params) (tr : Transport)
    (dresp : Response) : TryStep :=
  let h2 := uploadHeadersFinal p dresp
  match dresp.body with
  | .buffer len => .raise (bufferedMsg p.downloadUrl len) none
  | .stream =>
      let upReq : UploadReq := { method := p.method, url := p.uploadUrl, headers := h2 }
      match tr.upload with
      | .error e => .raise e (some upReq)
      | .ok uresp =>
        let failUp (usc : Nat) : TryStep :=
          let msg := uploadFailMsg p.uploadUrl usc p.method
          if p.throwOnError then .raise msg (some upReq)
          else .ret { error := some msg, uploadStatus := some usc,
                      downloadStatus := dresp.statusCode,
                      uploadUrl := some p.uploadUrl,
                      downloadUrl := some p.downloadUrl } (some upReq)
        let success : TryStep :=
          .ret { success := some true,
                 downloadStatus := some (natOr dresp.statusCode 200),
                 uploadStatus := some (natOr uresp.statusCode 200),
                 uploadResponse := decodeUploadBody jparse uresp.body } (some upReq)
        match uresp.statusCode with
        | some usc => if usc < 200 ∨ usc ≥ 300 then failUp usc else success
        | none => success
  | b => .raise (notStreamableMsg p.downloadUrl b) none

/-- The `try` block of `execute` (lines 138–283): download, status check, then
`afterStatus`. -/
def tryBody (jparse : String → Option Json) (p : Params) (tr : Transport) : TryStep :=
  match tr.download with
  | .error e => .raise e none
  | .ok dresp =>
    match dresp.statusCode with
    | some dsc =>
      if dsc < 200 ∨ dsc ≥ 300 then
        let msg := downloadFailMsg p.downloadUrl dsc
        if p.throwOnError then .raise msg none
        else .ret { error := some msg, downloadStatus := some dsc,
                    downloadUrl := some p.downloadUrl } none
      else afterStatus jparse p tr dresp
    | none => afterStatus jparse p tr dresp

/-- The whole `execute` function (lines 79–305): URL validation (thrown outside
the `try`, hence never enriched and never downgraded), then the `try` body, with
the `catch` applying message enrichment and the `throwOnError` policy. -/
def execute (jparse : String → Option Json) (p : Params) (tr : Transport) : ExecResult :=
  if jsTrim p.downloadUrl = "" then
    { outcome := .threw "Download URL is required and cannot be empty",
      downloadIssued := false, uploadReq := none }
  else if jsTrim p.uploadUrl = "" then
    { outcome := .threw "Upload URL is required and cannot be empty",
      downloadIssued := false, uploadReq := none }
  else
    match tryBody jparse p tr with
    | .ret r up => { outcome := .returned r, downloadIssued := true, uploadReq := up }
    | .raise msg up =>
        let enhanced := enhance p msg
        if p.throwOnError then
          { outcome := .threw enhanced, downloadIssued := true, uploadReq := up }
        else
          { outcome := .returned
              { error := some enhanced, success := some false,
                downloadUrl := some p.downloadUrl, uploadUrl := some p.uploadUrl },
            downloadIssued := true, uploadReq := up }

/-- The failure message an outcome carries: a thrown message, or the `error`
field of a returned record. -/
def outcomeErrMsg : Outcome → Option String
  | .threw m => some m
  | .returned r => r.error

/-- Bool-valued download/upload status acceptance: the phase's status check
passes (status undefined, or within `[200, 300)`). -/
def statusOk : Option Nat → Bool
  | some sc => decide (200 ≤ sc ∧ sc < 300)
  | none => true

/-! ## Concrete fixtures for witnesses and counterexamples -/

/-- A `JSON.parse` oracle that accepts no input. -/
def jpNone : String → Option Json := fun _ => none

/-- A `JSON.parse` oracle that decodes exactly the text `{}`. -/
def jpBrace : String → Option Json := fun s => if s = "{}" then some (.obj []) else none

/-- Compact `Response` constructor. -/
def resp (sc : Option Nat) (hs : HMap) (b : BodyVal) : Response := ⟨sc, hs, b⟩

/-- Compact `Transport` constructor. -/
def trOf (d u : Except String Response) : Transport := ⟨d, u⟩

/-- Baseline node parameters for concrete scenarios. -/
def pBase : Params :=
  { downloadUrl := "http://d/x", uploadUrl := "http://u/y", contentLength := .str "",
    method := "POST", downloadHeaders := [], uploadHeaders := [], throwOnError := true }

/-- Parameters with a bearer-carrying upload URL and an upload header under the
case-variant key `AUTHORIZATION`. -/
def pAuthVariant : Params :=
  { pBase with uploadUrl := "http://u/y?bearer=tok",
               uploadHeaders := [("AUTHORIZATION", "Basic x")] }

/-- Parameters with a bearer-carrying upload URL and an upload header under the
exact key `Authorization`. -/
def pAuthExact : Params :=
  { pBase with uploadUrl := "http://u/y?bearer=tok",
               uploadHeaders := [("Authorization", "Basic y")] }

/-! ## Helper lemmas on the header-map and string operations -/

theorem listContainsSub_iff (pat l : List Char) :
    listContainsSub pat l = true ↔ pat <:+: l := by
  induction l with
  | nil => simp [listContainsSub, List.isEmpty_iff, List.infix_nil]
  | cons c rest ih =>
      simp [listContainsSub, ih, List.infix_cons_iff, List.isPrefixOf_iff_prefix]

theorem strContains_iff (s pat : String) :
    strContains s pat = true ↔ pat.toList <:+: s.toList :=
  listContainsSub_iff _ _

theorem toList_append (a b : String) : (a ++ b).toList = a.toList ++ b.toList := by
  simp [String.toList, String.data_append]

theorem strContains_append_right (a b pat : String)
    (h : strContains b pat = true) : strContains (a ++ b) pat = true := by
  rw [strContains_iff] at h ⊢
  obtain ⟨s, t, hst⟩ := h
  refine ⟨a.toList ++ s, t, ?_⟩
  rw [toList_append, ← hst]
  simp [List.append_assoc]

theorem strContains_append_left (a b pat : String)
    (h : strContains a pat = true) : strContains (a ++ b) pat = true := by
  rw [strContains_iff] at h ⊢
  obtain ⟨s, t, hst⟩ := h
  refine ⟨s, t ++ b.toList, ?_⟩
  rw [toList_append, ← hst]
  simp [List.append_assoc]

theorem strContains_self (s : String) : strContains s s = true := by
  rw [strContains_iff]

/-- A message that contains a pattern still contains it after the catch-block
enrichment. -/
theorem strContains_enhance (p : Params) (msg pat : String)
    (h : strContains msg pat = true) : strContains (enhance p msg) pat = true := by
  unfold enhance
  split
  · exact h
  · exact strContains_append_left _ _ _
      (strContains_append_left _ _ _
        (strContains_append_left _ _ _
          (strContains_append_left _ _ _ (strContains_append_right _ _ _ h))))

theorem hGet_hSet (m : HMap) (k v k' : String) :
    hGet (hSet m k v) k' = if k = k' then some v else hGet m k' := by
  induction m with
  | nil => simp [hSet, hGet]
  | cons kv rest ih =>
      obtain ⟨k0, v0⟩ := kv
      by_cases h : k0 = k
      · rw [show hSet ((k0, v0) :: rest) k v = (k, v) :: rest from by simp [hSet, h]]
        by_cases h' : k = k'
        · simp [hGet, h', h]
        · simp [hGet, h', h]
      · rw [show hSet ((k0, v0) :: rest) k v = (k0, v0) :: hSet rest k v from by
          simp [hSet, h]]
        by_cases h0 : k0 = k'
        · have hkk : ¬k = k' := fun he => h (h0.trans he.symm)
          simp [hGet, h0, hkk]
        · simp [hGet, h0, ih]

theorem hGet_eq_none_iff (m : HMap) (k : String) :
    hGet m k = none ↔ ∀ kv ∈ m, kv.1 ≠ k := by
  induction m with
  | nil => simp [hGet]
  | cons kv rest ih =>
      obtain ⟨k0, v0⟩ := kv
      by_cases h : k0 = k <;> simp [hGet, h, ih]

theorem hGet_hMerge_of_none (a b : HMap) (k : String) (h : hGet b k = none) :
    hGet (hMerge a b) k = hGet a k := by
  induction b generalizing a with
  | nil => rfl
  | cons kv rest ih =>
      obtain ⟨k0, v0⟩ := kv
      have h0 : k0 ≠ k := by
        intro hk
        simp [hGet, hk] at h
      have hrest : hGet rest k = none := by
        simpa [hGet, h0] using h
      show hGet (hMerge (hSet a k0 v0) rest) k = hGet a k
      rw [ih _ hrest, hGet_hSet, if_neg h0]

theorem hGet_hMerge (a b : HMap) (k : String) (hb : (b.map Prod.fst).Nodup) :
    hGet (hMerge a b) k =
      match hGet b k with
      | some v => some v
      | none => hGet a k := by
  induction b generalizing a with
  | nil => rfl
  | cons kv rest ih =>
      obtain ⟨k0, v0⟩ := kv
      simp only [List.map_cons, List.nodup_cons] at hb
      obtain ⟨hk0, hrest⟩ := hb
      show hGet (hMerge (hSet a k0 v0) rest) k = _
      by_cases h : k0 = k
      · have hnone : hGet rest k = none := by
          rw [hGet_eq_none_iff]
          intro kv hkv hk
          have hmem : kv.1 ∈ rest.map Prod.fst := List.mem_map_of_mem Prod.fst hkv
          rw [hk, ← h] at hmem
          exact hk0 hmem
        rw [ih _ hrest, hnone, hGet_hSet, if_pos h]
        simp [hGet, h]
      · rw [ih _ hrest, hGet_hSet, if_neg h]
        simp only [hGet, if_neg h]

/-! ## Characterization lemmas for `execute` -/

/-- The upload request a `TryStep` records. -/
def stepUpReq : TryStep → Option UploadReq
  | .ret _ u => u
  | .raise _ u => u

theorem execute_uploadReq (jparse : String → Option Json) (p : Params) (tr : Transport)
    (hd : ¬jsTrim p.downloadUrl = "") (hu : ¬jsTrim p.uploadUrl = "") :
    (execute jparse p tr).uploadReq = stepUpReq (tryBody jparse p tr) := by
  unfold execute
  rw [if_neg hd, if_neg hu]
  cases tryBody jparse p tr with
  | ret r up => rfl
  | raise m up =>
      simp only [stepUpReq]
      split <;> rfl

theorem execute_outcome_ret (jparse : String → Option Json) (p : Params) (tr : Transport)
    (r : ResultJson) (up : Option UploadReq)
    (hd : ¬jsTrim p.downloadUrl = "") (hu : ¬jsTrim p.uploadUrl = "")
    (h : tryBody jparse p tr = .ret r up) :
    (execute jparse p tr).outcome = .returned r := by
  unfold execute
  rw [if_neg hd, if_neg hu, h]

theorem execute_outcome_raise (jparse : String → Option Json) (p : Params) (tr : Transport)
    (m : String) (up : Option UploadReq)
    (hd : ¬jsTrim p.downloadUrl = "") (hu : ¬jsTrim p.uploadUrl = "")
    (h : tryBody jparse p tr = .raise m up) :
    (execute jparse p tr).outcome =
      (if p.throwOnError then Outcome.threw (enhance p m)
       else Outcome.returned
         { error := some (enhance p m), success := some false,
           downloadUrl := some p.downloadUrl, uploadUrl := some p.uploadUrl }) := by
  unfold execute
  rw [if_neg hd, if_neg hu, h]
  dsimp only
  split <;> rfl

theorem statusOk_some (sc : Nat) (h : statusOk (some sc) = true) :
    ¬(sc < 200 ∨ sc ≥ 300) := by
  simp only [statusOk, decide_eq_true_eq] at h
  omega

theorem tryBody_eq_afterStatus (jparse : String → Option Json) (p : Params)
    (tr : Transport) (dresp : Response)
    (hdl : tr.download = .ok dresp) (hst : statusOk dresp.statusCode = true) :
    tryBody jparse p tr = afterStatus jparse p tr dresp := by
  unfold tryBody
  rw [hdl]
  dsimp only
  cases hsc : dresp.statusCode with
  | none => rfl
  | some sc =>
      rw [hsc] at hst
      dsimp only
      rw [if_neg (statusOk_some sc hst)]

theorem afterStatus_stream (jparse : String → Option Json) (p : Params)
    (tr : Transport) (dresp : Response) (hbody : dresp.body = .stream) :
    stepUpReq (afterStatus jparse p tr dresp) =
      some ⟨p.method, p.uploadUrl, uploadHeadersFinal p dresp⟩ := by
  unfold afterStatus
  rw [hbody]
  cases tr.upload with
  | error e => rfl
  | ok uresp =>
      simp only
      cases uresp.statusCode with
      | none => rfl
      | some usc =>
          simp only
          split
          · split <;> rfl
          · rfl

/-- Under a passing download status and a stream body, the upload request is
issued with the computed effective upload headers, against the unmodified
upload URL, with the configured method. -/
theorem execute_uploadReq_stream (jparse : String → Option Json) (p : Params)
    (tr : Transport) (dresp : Response)
    (hd : ¬jsTrim p.downloadUrl = "") (hu : ¬jsTrim p.uploadUrl = "")
    (hdl : tr.download = .ok dresp) (hst : statusOk dresp.statusCode = true)
    (hbody : dresp.body = .stream) :
    (execute jparse p tr).uploadReq =
      some ⟨p.method, p.uploadUrl, uploadHeadersFinal p dresp⟩ := by
  rw [execute_uploadReq jparse p tr hd hu,
    tryBody_eq_afterStatus jparse p tr dresp hdl hst,
    afterStatus_stream jparse p tr dresp hbody]

theorem afterStatus_success (jparse : String → Option Json) (p : Params)
    (tr : Transport) (dresp uresp : Response)
    (hbody : dresp.body = .stream) (hup : tr.upload = .ok uresp)
    (hust : statusOk uresp.statusCode = true) :
    afterStatus jparse p tr dresp =
      .ret { success := some true,
             downloadStatus := some (natOr dresp.statusCode 200),
             uploadStatus := some (natOr uresp.statusCode 200),
             uploadResponse := decodeUploadBody jparse uresp.body }
        (some ⟨p.method, p.uploadUrl, uploadHeadersFinal p dresp⟩) := by
  unfold afterStatus
  rw [hbody, hup]
  dsimp only
  cases husc : uresp.statusCode with
  | none => rfl
  | some usc =>
      rw [husc] at hust
      dsimp only
      rw [if_neg (statusOk_some usc hust)]

/-! ## Header-construction lemmas -/

/-- The bearer-injection step only ever assigns the exact key `Authorization`. -/
theorem hGet_uploadHeadersWithAuth_ne (p : Params) (k : String) (hk : ¬k = "Authorization") :
    hGet (uploadHeadersWithAuth p) k = hGet (baseUploadHeaders p) k := by
  unfold uploadHeadersWithAuth
  cases extractBearerToken p.uploadUrl with
  | none => rfl
  | some t =>
      dsimp only
      split
      · rw [hGet_hSet, if_neg (fun he => hk he.symm)]
      · rfl

/-- The explicit Content-Length tier only ever assigns the exact key
`Content-Length`. -/
theorem hGet_uploadHeadersWithCL_ne (p : Params) (k : String) (hk : ¬k = "Content-Length") :
    hGet (uploadHeadersWithCL p) k = hGet (uploadHeadersWithAuth p) k := by
  unfold uploadHeadersWithCL
  dsimp only
  split
  · split
    · split
      · rw [hGet_hSet, if_neg (fun he => hk he.symm)]
      · rfl
    · rfl
  · rfl

/-- The response-header Content-Length tier only ever assigns the exact key
`Content-Length`. -/
theorem hGet_uploadHeadersFinal_ne (p : Params) (dresp : Response) (k : String)
    (hk : ¬k = "Content-Length") :
    hGet (uploadHeadersFinal p dresp) k = hGet (uploadHeadersWithCL p) k := by
  unfold uploadHeadersFinal
  dsimp only
  split
  · split
    · split
      · split
        · rw [hGet_hSet, if_neg (fun he => hk he.symm)]
        · rfl
      · rfl
    · rfl
  · rfl

/-- When one of the exact keys `Authorization`/`authorization` is already truthy
in the merged upload headers, the bearer-injection step changes nothing. -/
theorem uploadHeadersWithAuth_of_present (p : Params)
    (h : hTruthy (baseUploadHeaders p) "Authorization" = true ∨
         hTruthy (baseUploadHeaders p) "authorization" = true) :
    uploadHeadersWithAuth p = baseUploadHeaders p := by
  unfold uploadHeadersWithAuth
  cases extractBearerToken p.uploadUrl with
  | none => rfl
  | some t =>
      dsimp only
      rw [if_neg]
      intro ⟨_, hA, ha⟩
      cases h with
      | inl h => exact hA h
      | inr h => exact ha h

/-- When neither exact casing is truthy and a truthy token is present, the
bearer-injection step assigns `Authorization: Bearer <token>`. -/
theorem uploadHeadersWithAuth_inject (p : Params) (t : String)
    (hex : extractBearerToken p.uploadUrl = some t) (ht : ¬t = "")
    (hA : hTruthy (baseUploadHeaders p) "Authorization" = false)
    (ha : hTruthy (baseUploadHeaders p) "authorization" = false) :
    uploadHeadersWithAuth p = hSet (baseUploadHeaders p) "Authorization" ("Bearer " ++ t) := by
  unfold uploadHeadersWithAuth
  rw [hex]
  dsimp only
  rw [if_pos]
  exact ⟨ht, by simp [hA], by simp [ha]⟩

/-! ## Claim theorems -/

/-- C9: if `downloadUrl` or `uploadUrl` is empty or whitespace-only after
trimming, `execute` raises a configuration error regardless of `throwOnError`,
before any network request is issued, and never downgrades it to a result
record. -/
theorem c9_config_error_always_thrown (jparse : String → Option Json) (p : Params)
    (tr : Transport) (h : jsTrim p.downloadUrl = "" ∨ jsTrim p.uploadUrl = "") :
    (execute jparse p tr).outcome =
      .threw (if jsTrim p.downloadUrl = "" then "Download URL is required and cannot be empty"
              else "Upload URL is required and cannot be empty") ∧
    (execute jparse p tr).downloadIssued = false ∧
    (execute jparse p tr).uploadReq = none := by
  by_cases hd : jsTrim p.downloadUrl = ""
  · have he : execute jparse p tr =
        { outcome := .threw "Download URL is required and cannot be empty",
          downloadIssued := false, uploadReq := none } := by
      unfold execute
      rw [if_pos hd]
    rw [he, if_pos hd]
    exact ⟨rfl, rfl, rfl⟩
  · have hup : jsTrim p.uploadUrl = "" := h.resolve_left hd
    have he : execute jparse p tr =
        { outcome := .threw "Upload URL is required and cannot be empty",
          downloadIssued := false, uploadReq := none } := by
      unfold execute
      rw [if_neg hd, if_pos hup]
    rw [he, if_neg hd]
    exact ⟨rfl, rfl, rfl⟩

/-- Witness for C9 at a whitespace-only download URL with `throwOnError = false`. -/
theorem c9_config_error_always_thrown_witness :
    (execute jpNone { pBase with downloadUrl := "   ", throwOnError := false }
      (trOf (.ok (resp (some 200) [] .stream)) (.ok (resp (some 200) [] .undef)))).outcome =
      .threw "Download URL is required and cannot be empty" := by
  have h := c9_config_error_always_thrown jpNone
    { pBase with downloadUrl := "   ", throwOnError := false }
    (trOf (.ok (resp (some 200) [] .stream)) (.ok (resp (some 200) [] .undef)))
    (Or.inl (by decide))
  rw [h.1, if_pos (show jsTrim "   " = "" by decide)]

/-- C8: a 404 download status with `throwOnError = false` returns (does not
throw) a record whose error message contains `404` and the download URL and
whose `downloadStatus` is 404, and no upload request is issued. -/
theorem c8_download404_returns_record (jparse : String → Option Json) (p : Params)
    (tr : Transport) (dresp : Response)
    (hd : ¬jsTrim p.downloadUrl = "") (hu : ¬jsTrim p.uploadUrl = "")
    (hdl : tr.download = .ok dresp) (hsc : dresp.statusCode = some 404)
    (hth : p.throwOnError = false) :
    (execute jparse p tr).outcome =
      .returned { error := some (downloadFailMsg p.downloadUrl 404),
                  downloadStatus := some 404, downloadUrl := some p.downloadUrl } ∧
    strContains (downloadFailMsg p.downloadUrl 404) "404" = true ∧
    strContains (downloadFailMsg p.downloadUrl 404) p.downloadUrl = true ∧
    (execute jparse p tr).uploadReq = none := by
  have htb : tryBody jparse p tr =
      .ret { error := some (downloadFailMsg p.downloadUrl 404),
             downloadStatus := some 404, downloadUrl := some p.downloadUrl } none := by
    unfold tryBody
    rw [hdl]
    dsimp only
    rw [hsc]
    dsimp only
    rw [if_pos (show (404 : Nat) < 200 ∨ (404 : Nat) ≥ 300 by omega), hth]
    rfl
  refine ⟨execute_outcome_ret _ _ _ _ _ hd hu htb, ?_, ?_, ?_⟩
  · unfold downloadFailMsg
    apply strContains_append_left
    apply strContains_append_left
    apply strContains_append_left
    apply strContains_append_right
    rfl
  · unfold downloadFailMsg
    apply strContains_append_left
    apply strContains_append_right
    exact strContains_self _
  · rw [execute_uploadReq _ _ _ hd hu, htb]
    rfl

/-- Witness for C8 at a concrete 404 download response. -/
theorem c8_download404_returns_record_witness :
    (execute jpNone { pBase with throwOnError := false }
      (trOf (.ok (resp (some 404) [] .stream)) (.ok (resp (some 200) [] .undef)))).outcome =
      .returned { error := some (downloadFailMsg "http://d/x" 404),
                  downloadStatus := some 404, downloadUrl := some "http://d/x" } ∧
    strContains (downloadFailMsg "http://d/x" 404) "404" = true ∧
    strContains (downloadFailMsg "http://d/x" 404) "http://d/x" = true ∧
    (execute jpNone { pBase with throwOnError := false }
      (trOf (.ok (resp (some 404) [] .stream)) (.ok (resp (some 200) [] .undef)))).uploadReq =
      none :=
  c8_download404_returns_record jpNone { pBase with throwOnError := false }
    (trOf (.ok (resp (some 404) [] .stream)) (.ok (resp (some 200) [] .undef)))
    (resp (some 404) [] .stream) (by decide) (by decide) rfl rfl rfl

/-- C10: when a phase's response has no status code, that phase's non-2xx
validation is skipped and the transfer proceeds; on overall success the result
reports the default 200 for both phases' status fields. -/
theorem c10_undefined_status_defaults (jparse : String → Option Json) (p : Params)
    (tr : Transport) (dresp uresp : Response)
    (hd : ¬jsTrim p.downloadUrl = "") (hu : ¬jsTrim p.uploadUrl = "")
    (hdl : tr.download = .ok dresp) (hdsc : dresp.statusCode = none)
    (hbody : dresp.body = .stream) (hup : tr.upload = .ok uresp)
    (husc : uresp.statusCode = none) :
    (execute jparse p tr).uploadReq =
      some ⟨p.method, p.uploadUrl, uploadHeadersFinal p dresp⟩ ∧
    (execute jparse p tr).outcome =
      .returned { success := some true, downloadStatus := some 200, uploadStatus := some 200,
                  uploadResponse := decodeUploadBody jparse uresp.body } := by
  have hst : statusOk dresp.statusCode = true := by rw [hdsc]; rfl
  have hust : statusOk uresp.statusCode = true := by rw [husc]; rfl
  refine ⟨execute_uploadReq_stream jparse p tr dresp hd hu hdl hst hbody, ?_⟩
  have htb := (tryBody_eq_afterStatus jparse p tr dresp hdl hst).trans
    (afterStatus_success jparse p tr dresp uresp hbody hup hust)
  have h2 := execute_outcome_ret _ _ _ _ _ hd hu htb
  rw [h2, hdsc, husc]
  rfl

/-- Witness for C10 at concrete responses with no status codes. -/
theorem c10_undefined_status_defaults_witness :
    (execute jpNone pBase
      (trOf (.ok (resp none [] .stream)) (.ok (resp none [] (.jstr "hi"))))).uploadReq =
      some ⟨"POST", "http://u/y",
        uploadHeadersFinal pBase (resp none [] .stream)⟩ ∧
    (execute jpNone pBase
      (trOf (.ok (resp none [] .stream)) (.ok (resp none [] (.jstr "hi"))))).outcome =
      .returned { success := some true, downloadStatus := some 200, uploadStatus := some 200,
                  uploadResponse := decodeUploadBody jpNone (.jstr "hi") } :=
  c10_undefined_status_defaults jpNone pBase
    (trOf (.ok (resp none [] .stream)) (.ok (resp none [] (.jstr "hi"))))
    (resp none [] .stream) (resp none [] (.jstr "hi"))
    (by decide) (by decide) rfl rfl rfl rfl rfl

/-- C7: on a successful transfer with a defined string upload body, valid JSON
text is decoded into `uploadResponse`, non-JSON text is returned unchanged, and
the decode attempt itself never raises (the outcome is a returned record in
both cases). -/
theorem c7_upload_response_decode (jparse : String → Option Json) (p : Params)
    (tr : Transport) (dresp uresp : Response) (s : String)
    (hd : ¬jsTrim p.downloadUrl = "") (hu : ¬jsTrim p.uploadUrl = "")
    (hdl : tr.download = .ok dresp) (hst : statusOk dresp.statusCode = true)
    (hbody : dresp.body = .stream)
    (hup : tr.upload = .ok uresp) (hust : statusOk uresp.statusCode = true)
    (hub : uresp.body = .jstr s) :
    (∀ j, jparse s = some j →
       (execute jparse p tr).outcome =
         .returned { success := some true,
                     downloadStatus := some (natOr dresp.statusCode 200),
                     uploadStatus := some (natOr uresp.statusCode 200),
                     uploadResponse := some (.parsed j) }) ∧
    (jparse s = none →
       (execute jparse p tr).outcome =
         .returned { success := some true,
                     downloadStatus := some (natOr dresp.statusCode 200),
                     uploadStatus := some (natOr uresp.statusCode 200),
                     uploadResponse := some (.raw (.jstr s)) }) := by
  have htb := (tryBody_eq_afterStatus jparse p tr dresp hdl hst).trans
    (afterStatus_success jparse p tr dresp uresp hbody hup hust)
  have h2 := execute_outcome_ret _ _ _ _ _ hd hu htb
  constructor
  · intro j hj
    rw [h2, hub]
    simp [decodeUploadBody, hj]
  · intro hj
    rw [h2, hub]
    simp [decodeUploadBody, hj]

/-- Witness for C7: a JSON body `{}` decodes, a non-JSON body `notjson` is
passed through raw. -/
theorem c7_upload_response_decode_witness :
    (execute jpBrace pBase
      (trOf (.ok (resp (some 200) [] .stream)) (.ok (resp (some 201) [] (.jstr "{}"))))).outcome =
      .returned { success := some true, downloadStatus := some 200, uploadStatus := some 201,
                  uploadResponse := some (.parsed (.obj [])) } ∧
    (execute jpNone pBase
      (trOf (.ok (resp (some 200) [] .stream))
            (.ok (resp (some 201) [] (.jstr "notjson"))))).outcome =
      .returned { success := some true, downloadStatus := some 200, uploadStatus := some 201,
                  uploadResponse := some (.raw (.jstr "notjson")) } :=
  ⟨(c7_upload_response_decode jpBrace pBase
      (trOf (.ok (resp (some 200) [] .stream)) (.ok (resp (some 201) [] (.jstr "{}"))))
      (resp (some 200) [] .stream) (resp (some 201) [] (.jstr "{}")) "{}"
      (by decide) (by decide) rfl rfl rfl rfl rfl rfl).1 (.obj []) rfl,
   (c7_upload_response_decode jpNone pBase
      (trOf (.ok (resp (some 200) [] .stream)) (.ok (resp (some 201) [] (.jstr "notjson"))))
      (resp (some 200) [] .stream) (resp (some 201) [] (.jstr "notjson")) "notjson"
      (by decide) (by decide) rfl rfl rfl rfl rfl rfl).2 rfl⟩

/-- C6: a non-empty `bearer` query parameter on the upload URL is mirrored into
an `Authorization: Bearer <token>` upload header when the upload headers contain
no case-variant of `Authorization`, while the upload request is issued against
the unmodified upload URL string. -/
theorem c6_bearer_mirrored_url_unmodified (jparse : String → Option Json) (p : Params)
    (tr : Transport) (dresp : Response) (t : String)
    (hd : ¬jsTrim p.downloadUrl = "") (hu : ¬jsTrim p.uploadUrl = "")
    (hdl : tr.download = .ok dresp) (hst : statusOk dresp.statusCode = true)
    (hbody : dresp.body = .stream)
    (hex : extractBearerToken p.uploadUrl = some t) (ht : ¬t = "")
    (hnoauth : ∀ kv ∈ p.uploadHeaders, ¬lowerStr kv.1 = "authorization") :
    (execute jparse p tr).uploadReq =
      some ⟨p.method, p.uploadUrl, uploadHeadersFinal p dresp⟩ ∧
    hGet (uploadHeadersFinal p dresp) "Authorization" = some ("Bearer " ++ t) := by
  have hA : hGet p.uploadHeaders "Authorization" = none := by
    rw [hGet_eq_none_iff]
    intro kv hkv he
    exact hnoauth kv hkv (by rw [he]; decide)
  have ha : hGet p.uploadHeaders "authorization" = none := by
    rw [hGet_eq_none_iff]
    intro kv hkv he
    exact hnoauth kv hkv (by rw [he]; decide)
  have hbA : hGet (baseUploadHeaders p) "Authorization" = none := by
    unfold baseUploadHeaders
    rw [hGet_hMerge_of_none _ _ _ hA]
    rfl
  have hba : hGet (baseUploadHeaders p) "authorization" = none := by
    unfold baseUploadHeaders
    rw [hGet_hMerge_of_none _ _ _ ha]
    rfl
  have hTA : hTruthy (baseUploadHeaders p) "Authorization" = false := by
    simp [hTruthy, hbA]
  have hTa : hTruthy (baseUploadHeaders p) "authorization" = false := by
    simp [hTruthy, hba]
  have hinj := uploadHeadersWithAuth_inject p t hex ht hTA hTa
  refine ⟨execute_uploadReq_stream jparse p tr dresp hd hu hdl hst hbody, ?_⟩
  rw [hGet_uploadHeadersFinal_ne p dresp _ (by decide),
      hGet_uploadHeadersWithCL_ne p _ (by decide), hinj, hGet_hSet, if_pos rfl]

/-- Witness for C6 at a concrete upload URL carrying `?bearer=tok`. -/
theorem c6_bearer_mirrored_url_unmodified_witness :
    (execute jpNone { pBase with uploadUrl := "http://u/y?bearer=tok" }
      (trOf (.ok (resp (some 200) [] .stream)) (.ok (resp (some 200) [] .undef)))).uploadReq =
      some ⟨"POST", "http://u/y?bearer=tok",
        uploadHeadersFinal { pBase with uploadUrl := "http://u/y?bearer=tok" }
          (resp (some 200) [] .stream)⟩ ∧
    hGet (uploadHeadersFinal { pBase with uploadUrl := "http://u/y?bearer=tok" }
      (resp (some 200) [] .stream)) "Authorization" = some ("Bearer " ++ "tok") :=
  c6_bearer_mirrored_url_unmodified jpNone
    { pBase with uploadUrl := "http://u/y?bearer=tok" }
    (trOf (.ok (resp (some 200) [] .stream)) (.ok (resp (some 200) [] .undef)))
    (resp (some 200) [] .stream) "tok"
    (by decide) (by decide) rfl rfl rfl rfl (by decide) (by simp [pBase])

/-- With `throwOnError = true`, any record returned normally out of the upload
phase is the success record. -/
theorem afterStatus_ret_success (jparse : String → Option Json) (p : Params)
    (tr : Transport) (dresp : Response) (r : ResultJson) (up : Option UploadReq)
    (hth : p.throwOnError = true)
    (h : afterStatus jparse p tr dresp = .ret r up) : r.success = some true := by
  unfold afterStatus at h
  cases hb : dresp.body with
  | buffer len =>
      rw [hb] at h
      simp at h
  | stream =>
      rw [hb] at h
      dsimp only at h
      cases hup : tr.upload with
      | error e =>
          rw [hup] at h
          simp at h
      | ok uresp =>
          rw [hup] at h
          dsimp only at h
          cases husc : uresp.statusCode with
          | none =>
              rw [husc] at h
              dsimp only at h
              cases h
              rfl
          | some usc =>
              rw [husc] at h
              dsimp only at h
              split at h
              all_goals first
                | exact absurd hth (by assumption)
                | (cases h; rfl)
                | cases h
  | jstr s =>
      rw [hb] at h
      simp at h
  | jobj c st =>
      rw [hb] at h
      simp at h
  | undef =>
      rw [hb] at h
      simp at h

/-- With `throwOnError = true`, any record returned normally out of the `try`
block is the success record. -/
theorem tryBody_ret_success (jparse : String → Option Json) (p : Params)
    (tr : Transport) (r : ResultJson) (up : Option UploadReq)
    (hth : p.throwOnError = true)
    (h : tryBody jparse p tr = .ret r up) : r.success = some true := by
  unfold tryBody at h
  cases hdl : tr.download with
  | error e =>
      rw [hdl] at h
      simp at h
  | ok dresp =>
      rw [hdl] at h
      dsimp only at h
      cases hsc : dresp.statusCode with
      | none =>
          rw [hsc] at h
          dsimp only at h
          exact afterStatus_ret_success jparse p tr dresp r up hth h
      | some sc =>
          rw [hsc] at h
          dsimp only at h
          split at h
          all_goals first
            | exact absurd hth (by assumption)
            | cases h
            | exact afterStatus_ret_success jparse p tr dresp r up hth h

/-- Full characterization of the effective `Content-Length` upload header when
the user supplied none: an explicit truthy `contentLength` wins (and, even when
it fails to parse or is non-positive, suppresses the response-header tier); a
falsy explicit value defers to the response's exact `content-length` key. -/
theorem hGet_uploadHeadersFinal_CL (p : Params) (dresp : Response)
    (hbase : hGet (baseUploadHeaders p) "Content-Length" = none) :
    hGet (uploadHeadersFinal p dresp) "Content-Length" =
      (if clTruthy p.contentLength then
        match clToLength p.contentLength with
        | some l => if l > 0 then some (toString l) else none
        | none => none
      else
        match hGet dresp.headers "content-length" with
        | some s =>
            if s = "" then none
            else
              match jsParseInt s with
              | some l => if l > 0 then some (toString l) else none
              | none => none
        | none => none) := by
  have hA : hGet (uploadHeadersWithAuth p) "Content-Length" = none := by
    rw [hGet_uploadHeadersWithAuth_ne p _ (by decide)]
    exact hbase
  have hTA : hTruthy (uploadHeadersWithAuth p) "Content-Length" = false := by
    simp [hTruthy, hA]
  by_cases hct : clTruthy p.contentLength = true
  · rw [if_pos hct]
    cases hcl : clToLength p.contentLength with
    | some l =>
        by_cases hl : l > 0
        · have hwcl : uploadHeadersWithCL p =
              hSet (uploadHeadersWithAuth p) "Content-Length" (toString l) := by
            simp [uploadHeadersWithCL, hct, hcl, hl]
          simp only [uploadHeadersFinal, hct, hcl, hwcl]
          split <;> simp_all [hGet_hSet]
          split <;> simp [hGet_hSet]
        · have hwcl : uploadHeadersWithCL p = uploadHeadersWithAuth p := by
            simp [uploadHeadersWithCL, hct, hcl, hl]
          simp [uploadHeadersFinal, hct, hcl, hl, hwcl, hTA, hA]
    | none =>
        have hwcl : uploadHeadersWithCL p = uploadHeadersWithAuth p := by
          simp [uploadHeadersWithCL, hct, hcl]
        simp [uploadHeadersFinal, hct, hcl, hwcl, hTA, hA]
  · have hctf : clTruthy p.contentLength = false := by
      simpa using hct
    have hwcl : uploadHeadersWithCL p = uploadHeadersWithAuth p := by
      simp [uploadHeadersWithCL, hctf]
    rw [if_neg hct]
    cases hh : hGet dresp.headers "content-length" with
    | none => simp [uploadHeadersFinal, hctf, hh, hwcl, hA]
    | some s =>
        simp only [uploadHeadersFinal, hctf, hh, hwcl]
        by_cases hs : s = ""
        · subst hs
          simp [hA, show clTruthy (CLParam.str "") = false from rfl]
        · have hcs : clTruthy (CLParam.str s) = true := by
            simp [clTruthy, hs]
          rw [if_neg hs]
          cases hpi : jsParseInt s with
          | some l =>
              have hcll : clToLength (CLParam.str s) = some l := hpi
              by_cases hl : l > 0
              · simp [hcs, hTA, hcll, hl, hGet_hSet]
              · simp [hcs, hTA, hcll, hl, hA]
          | none =>
              have hcll : clToLength (CLParam.str s) = none := hpi
              simp [hcs, hTA, hcll, hA]

/-- C1 (counterexample): with download status 404 and a Buffer body, the
operation fails with the download-status error — whose message does not embed
the buffer's byte length and is not the buffered-response diagnostic — so the
stream-validation failure does not occur regardless of status code. -/
theorem c1_counterexample :
    (execute jpNone pBase
      (trOf (.ok (resp (some 404) [] (.buffer 10))) (.ok (resp (some 200) [] .undef)))).outcome =
      .threw (enhance pBase (downloadFailMsg "http://d/x" 404)) ∧
    strContains (enhance pBase (downloadFailMsg "http://d/x" 404)) "10 bytes" = false ∧
    enhance pBase (downloadFailMsg "http://d/x" 404) ≠ bufferedMsg "http://d/x" 10 :=
  ⟨rfl, by decide, by decide⟩

/-- C1 (amended): whenever the download status check passes (status absent or
2xx), a Buffer body causes a stream-validation failure — thrown or captured per
`throwOnError` — whose message embeds the buffer's byte length, and no upload
request is issued. With a non-2xx status the status error preempts this check. -/
theorem c1_amended_buffer_rejected (jparse : String → Option Json) (p : Params)
    (tr : Transport) (dresp : Response) (len : Nat)
    (hd : ¬jsTrim p.downloadUrl = "") (hu : ¬jsTrim p.uploadUrl = "")
    (hdl : tr.download = .ok dresp) (hst : statusOk dresp.statusCode = true)
    (hbody : dresp.body = .buffer len) :
    (execute jparse p tr).uploadReq = none ∧
    outcomeErrMsg (execute jparse p tr).outcome =
      some (enhance p (bufferedMsg p.downloadUrl len)) ∧
    strContains (enhance p (bufferedMsg p.downloadUrl len)) (toString len) = true := by
  have hraise : tryBody jparse p tr = .raise (bufferedMsg p.downloadUrl len) none := by
    rw [tryBody_eq_afterStatus jparse p tr dresp hdl hst]
    unfold afterStatus
    rw [hbody]
  have hout := execute_outcome_raise _ _ _ _ _ hd hu hraise
  refine ⟨?_, ?_, ?_⟩
  · rw [execute_uploadReq _ _ _ hd hu, hraise]
    rfl
  · rw [hout]
    split <;> rfl
  · apply strContains_enhance
    unfold bufferedMsg
    apply strContains_append_left
    apply strContains_append_left
    apply strContains_append_left
    apply strContains_append_right
    exact strContains_self _

/-- Witness for the amended C1 at a 200-status buffered response. -/
theorem c1_amended_buffer_rejected_witness :
    (execute jpNone pBase
      (trOf (.ok (resp (some 200) [] (.buffer 10))) (.ok (resp (some 200) [] .undef)))).uploadReq =
      none ∧
    outcomeErrMsg (execute jpNone pBase
      (trOf (.ok (resp (some 200) [] (.buffer 10)))
            (.ok (resp (some 200) [] .undef)))).outcome =
      some (enhance pBase (bufferedMsg "http://d/x" 10)) ∧
    strContains (enhance pBase (bufferedMsg "http://d/x" 10)) (toString 10) = true :=
  c1_amended_buffer_rejected jpNone pBase
    (trOf (.ok (resp (some 200) [] (.buffer 10))) (.ok (resp (some 200) [] .undef)))
    (resp (some 200) [] (.buffer 10)) 10 (by decide) (by decide) rfl rfl rfl

/-- C2 (counterexample): a non-numeric explicit `contentLength` (`"abc"`) does
not fall through to the response-header tier: with a response `content-length`
of `100`, no `Content-Length` header is set on the upload request at all. -/
theorem c2_counterexample :
    ((execute jpNone { pBase with contentLength := .str "abc" }
      (trOf (.ok (resp (some 200) [("content-length", "100")] .stream))
            (.ok (resp (some 200) [] .undef)))).uploadReq.map
        (fun r => hGet r.headers "Content-Length")) = some none ∧
    jsParseInt "abc" = none ∧ jsParseInt "100" = some 100 :=
  ⟨rfl, rfl, rfl⟩

/-- C2 (amended): when the user set no `Content-Length` upload header, the
effective upload `Content-Length` is: a truthy explicit `contentLength` parsing
to a positive value, as its decimal string; a truthy explicit value that is
non-numeric or non-positive yields no header and suppresses the response-header
tier entirely; only a falsy explicit value (absent, `0`, or `""`) defers to the
response's exact `content-length` key, used when non-empty and parsing to a
positive value; otherwise no header is set. -/
theorem c2_amended_content_length_precedence (jparse : String → Option Json)
    (p : Params) (tr : Transport) (dresp : Response)
    (hd : ¬jsTrim p.downloadUrl = "") (hu : ¬jsTrim p.uploadUrl = "")
    (hdl : tr.download = .ok dresp) (hst : statusOk dresp.statusCode = true)
    (hbody : dresp.body = .stream)
    (hucl : hGet p.uploadHeaders "Content-Length" = none) :
    (execute jparse p tr).uploadReq =
      some ⟨p.method, p.uploadUrl, uploadHeadersFinal p dresp⟩ ∧
    hGet (uploadHeadersFinal p dresp) "Content-Length" =
      (if clTruthy p.contentLength then
        match clToLength p.contentLength with
        | some l => if l > 0 then some (toString l) else none
        | none => none
      else
        match hGet dresp.headers "content-length" with
        | some s =>
            if s = "" then none
            else
              match jsParseInt s with
              | some l => if l > 0 then some (toString l) else none
              | none => none
        | none => none) := by
  have hbase : hGet (baseUploadHeaders p) "Content-Length" = none := by
    unfold baseUploadHeaders
    rw [hGet_hMerge_of_none _ _ _ hucl]
    rfl
  exact ⟨execute_uploadReq_stream jparse p tr dresp hd hu hdl hst hbody,
    hGet_uploadHeadersFinal_CL p dresp hbase⟩

/-- Witness for the amended C2: a falsy explicit value defers to the response
header `content-length: 100`. -/
theorem c2_amended_content_length_precedence_witness :
    (execute jpNone pBase
      (trOf (.ok (resp (some 200) [("content-length", "100")] .stream))
            (.ok (resp (some 200) [] .undef)))).uploadReq =
      some ⟨"POST", "http://u/y",
        uploadHeadersFinal pBase (resp (some 200) [("content-length", "100")] .stream)⟩ ∧
    hGet (uploadHeadersFinal pBase
      (resp (some 200) [("content-length", "100")] .stream)) "Content-Length" =
      some "100" := by
  have h := c2_amended_content_length_precedence jpNone pBase
    (trOf (.ok (resp (some 200) [("content-length", "100")] .stream))
          (.ok (resp (some 200) [] .undef)))
    (resp (some 200) [("content-length", "100")] .stream)
    (by decide) (by decide) rfl rfl rfl (by decide)
  exact ⟨h.1, h.2.trans (by decide)⟩

/-- C3 (counterexample): an upload header under the case-variant key
`AUTHORIZATION` does not suppress the URL bearer token — an additional
`Authorization` header is added alongside it. -/
theorem c3_counterexample :
    hGet (baseUploadHeaders pAuthVariant) "AUTHORIZATION" = some "Basic x" ∧
    ((execute jpNone pAuthVariant
      (trOf (.ok (resp (some 200) [] .stream)) (.ok (resp (some 200) [] .undef)))).uploadReq.map
        (fun r => hGet r.headers "Authorization")) = some (some "Bearer tok") :=
  ⟨rfl, rfl⟩

/-- C3 (amended): only a truthy value under one of the exact keys
`Authorization` or `authorization` suppresses the URL bearer token; when one of
those is present, the token neither overrides it nor adds an additional
`Authorization` header — both lookups on the issued upload request's headers
equal the pre-injection merged headers. -/
theorem c3_amended_exact_case_suppression (jparse : String → Option Json)
    (p : Params) (tr : Transport) (dresp : Response)
    (hd : ¬jsTrim p.downloadUrl = "") (hu : ¬jsTrim p.uploadUrl = "")
    (hdl : tr.download = .ok dresp) (hst : statusOk dresp.statusCode = true)
    (hbody : dresp.body = .stream)
    (hpresent : hTruthy (baseUploadHeaders p) "Authorization" = true ∨
                hTruthy (baseUploadHeaders p) "authorization" = true) :
    (execute jparse p tr).uploadReq =
      some ⟨p.method, p.uploadUrl, uploadHeadersFinal p dresp⟩ ∧
    hGet (uploadHeadersFinal p dresp) "Authorization" =
      hGet (baseUploadHeaders p) "Authorization" ∧
    hGet (uploadHeadersFinal p dresp) "authorization" =
      hGet (baseUploadHeaders p) "authorization" := by
  have heq := uploadHeadersWithAuth_of_present p hpresent
  refine ⟨execute_uploadReq_stream jparse p tr dresp hd hu hdl hst hbody, ?_, ?_⟩
  · rw [hGet_uploadHeadersFinal_ne p dresp _ (by decide),
      hGet_uploadHeadersWithCL_ne p _ (by decide), heq]
  · rw [hGet_uploadHeadersFinal_ne p dresp _ (by decide),
      hGet_uploadHeadersWithCL_ne p _ (by decide), heq]

/-- Witness for the amended C3: an exact `Authorization` header survives a
bearer-carrying upload URL unchanged. -/
theorem c3_amended_exact_case_suppression_witness :
    (execute jpNone pAuthExact
      (trOf (.ok (resp (some 200) [] .stream)) (.ok (resp (some 200) [] .undef)))).uploadReq =
      some ⟨"POST", "http://u/y?bearer=tok",
        uploadHeadersFinal pAuthExact (resp (some 200) [] .stream)⟩ ∧
    hGet (uploadHeadersFinal pAuthExact (resp (some 200) [] .stream))
      "Authorization" = some "Basic y" := by
  have h := c3_amended_exact_case_suppression jpNone pAuthExact
    (trOf (.ok (resp (some 200) [] .stream)) (.ok (resp (some 200) [] .undef)))
    (resp (some 200) [] .stream)
    (by decide) (by decide) rfl rfl rfl (Or.inl (by decide))
  exact ⟨h.1, h.2.1.trans (by decide)⟩

/-- C4 (counterexample): with `throwOnError = true` and a 404 download status,
the raised error's message is the catch-block enrichment of the diagnostic, not
the pre-built diagnostic string itself. -/
theorem c4_counterexample :
    (execute jpNone pBase
      (trOf (.ok (resp (some 404) [] .stream)) (.ok (resp (some 200) [] .undef)))).outcome =
      .threw (enhance pBase (downloadFailMsg "http://d/x" 404)) ∧
    enhance pBase (downloadFailMsg "http://d/x" 404) ≠ downloadFailMsg "http://d/x" 404 :=
  ⟨rfl, by decide⟩

/-- C4 (amended): every terminal failure with `throwOnError = true` — download
transport error, download status error, stream-validation error in both its
buffered-response and not-streamable modes, upload transport error, upload
status error — raises an error whose message is the catch-block enrichment of
that failure's pre-built diagnostic (`File transfer failed: <diag>. Download
URL: <d>, Upload URL: <u>` unless the diagnostic already mentions
`Download URL` or `Upload URL`, in which case it is surfaced unchanged), and no
failure result record is produced: any returned record is the success record. -/
theorem c4_amended_enriched_throw (jparse : String → Option Json) (p : Params)
    (tr : Transport)
    (hd : ¬jsTrim p.downloadUrl = "") (hu : ¬jsTrim p.uploadUrl = "")
    (hth : p.throwOnError = true) :
    (∀ e, tr.download = .error e →
       (execute jparse p tr).outcome = .threw (enhance p e)) ∧
    (∀ dresp sc, tr.download = .ok dresp → dresp.statusCode = some sc →
       sc < 200 ∨ sc ≥ 300 →
       (execute jparse p tr).outcome =
         .threw (enhance p (downloadFailMsg p.downloadUrl sc))) ∧
    (∀ dresp len, tr.download = .ok dresp → statusOk dresp.statusCode = true →
       dresp.body = .buffer len →
       (execute jparse p tr).outcome =
         .threw (enhance p (bufferedMsg p.downloadUrl len))) ∧
    (∀ dresp b, tr.download = .ok dresp → statusOk dresp.statusCode = true →
       dresp.body = b → (∀ len, ¬b = .buffer len) → ¬b = .stream →
       (execute jparse p tr).outcome =
         .threw (enhance p (notStreamableMsg p.downloadUrl b))) ∧
    (∀ dresp e, tr.download = .ok dresp → statusOk dresp.statusCode = true →
       dresp.body = .stream → tr.upload = .error e →
       (execute jparse p tr).outcome = .threw (enhance p e)) ∧
    (∀ dresp uresp usc, tr.download = .ok dresp → statusOk dresp.statusCode = true →
       dresp.body = .stream → tr.upload = .ok uresp → uresp.statusCode = some usc →
       usc < 200 ∨ usc ≥ 300 →
       (execute jparse p tr).outcome =
         .threw (enhance p (uploadFailMsg p.uploadUrl usc p.method))) ∧
    (∀ r, (execute jparse p tr).outcome = .returned r → r.success = some true) := by
  refine ⟨?_, ?_, ?_, ?_, ?_, ?_, ?_⟩
  · intro e hdl
    have hraise : tryBody jparse p tr = .raise e none := by
      unfold tryBody
      rw [hdl]
    rw [execute_outcome_raise _ _ _ _ _ hd hu hraise, if_pos hth]
  · intro dresp sc hdl hsc hfail
    have hraise : tryBody jparse p tr = .raise (downloadFailMsg p.downloadUrl sc) none := by
      unfold tryBody
      rw [hdl]
      dsimp only
      rw [hsc]
      dsimp only
      rw [if_pos hfail, hth]
      rfl
    rw [execute_outcome_raise _ _ _ _ _ hd hu hraise, if_pos hth]
  · intro dresp len hdl hst hbody
    have hraise : tryBody jparse p tr = .raise (bufferedMsg p.downloadUrl len) none := by
      rw [tryBody_eq_afterStatus jparse p tr dresp hdl hst]
      unfold afterStatus
      rw [hbody]
    rw [execute_outcome_raise _ _ _ _ _ hd hu hraise, if_pos hth]
  · intro dresp b hdl hst hbody hnbuf hnstream
    have hraise : tryBody jparse p tr =
        .raise (notStreamableMsg p.downloadUrl b) none := by
      rw [tryBody_eq_afterStatus jparse p tr dresp hdl hst]
      unfold afterStatus
      rw [hbody]
      cases b with
      | buffer len => exact absurd rfl (hnbuf len)
      | stream => exact absurd rfl hnstream
      | jstr s => rfl
      | jobj c st => rfl
      | undef => rfl
    rw [execute_outcome_raise _ _ _ _ _ hd hu hraise, if_pos hth]
  · intro dresp e hdl hst hbody hup
    have hraise : tryBody jparse p tr =
        .raise e (some ⟨p.method, p.uploadUrl, uploadHeadersFinal p dresp⟩) := by
      rw [tryBody_eq_afterStatus jparse p tr dresp hdl hst]
      unfold afterStatus
      rw [hbody, hup]
    rw [execute_outcome_raise _ _ _ _ _ hd hu hraise, if_pos hth]
  · intro dresp uresp usc hdl hst hbody hup husc hfail
    have hraise : tryBody jparse p tr =
        .raise (uploadFailMsg p.uploadUrl usc p.method)
          (some ⟨p.method, p.uploadUrl, uploadHeadersFinal p dresp⟩) := by
      rw [tryBody_eq_afterStatus jparse p tr dresp hdl hst]
      unfold afterStatus
      rw [hbody, hup]
      dsimp only
      rw [husc]
      dsimp only
      rw [if_pos hfail, hth]
      rfl
    rw [execute_outcome_raise _ _ _ _ _ hd hu hraise, if_pos hth]
  · intro r hr
    unfold execute at hr
    rw [if_neg hd, if_neg hu] at hr
    cases htb : tryBody jparse p tr with
    | ret r' up =>
        rw [htb] at hr
        dsimp only at hr
        cases hr
        exact tryBody_ret_success jparse p tr r up hth htb
    | raise m up =>
        rw [htb] at hr
        dsimp only at hr
        rw [hth] at hr
        simp at hr

/-- Witness for the amended C4: the 404 download-status failure throws the
enriched diagnostic. -/
theorem c4_amended_enriched_throw_witness :
    (execute jpNone pBase
      (trOf (.ok (resp (some 404) [] .stream)) (.ok (resp (some 200) [] .undef)))).outcome =
      .threw (enhance pBase (downloadFailMsg "http://d/x" 404)) :=
  (c4_amended_enriched_throw jpNone pBase
    (trOf (.ok (resp (some 404) [] .stream)) (.ok (resp (some 200) [] .undef)))
    (by decide) (by decide) rfl).2.1 (resp (some 404) [] .stream) 404 rfl rfl
    (by omega)

/-- C5 (counterexample): a user download header under the differently-cased key
`accept` does not take precedence over the default: both keys coexist and the
default survives under `Accept`, refuting case-insensitive merge precedence. -/
theorem c5_counterexample :
    hGet (finalDownloadHeaders { pBase with downloadHeaders := [("accept", "text/html")] })
      "Accept" = some "*/*" ∧
    hGet (finalDownloadHeaders { pBase with downloadHeaders := [("accept", "text/html")] })
      "accept" = some "text/html" ∧
    finalDownloadHeaders { pBase with downloadHeaders := [("accept", "text/html")] } =
      [("Accept", "*/*"), ("accept", "text/html")] :=
  ⟨rfl, rfl, rfl⟩

/-- C5 (amended): the effective download headers are `{Accept: */*}` spread
with the user headers and the effective upload headers are
`{Content-Type: application/octet-stream}` spread with the user headers, where
user headers take precedence only on exactly (case-sensitively) matching keys;
a differently-cased user key coexists with the default instead of overriding
it. -/
theorem c5_amended_exact_key_merge (p : Params)
    (hnd : (p.downloadHeaders.map Prod.fst).Nodup)
    (hnu : (p.uploadHeaders.map Prod.fst).Nodup) :
    (∀ k, hGet (finalDownloadHeaders p) k =
       match hGet p.downloadHeaders k with
       | some v => some v
       | none => if k = "Accept" then some "*/*" else none) ∧
    (∀ k, hGet (baseUploadHeaders p) k =
       match hGet p.uploadHeaders k with
       | some v => some v
       | none => if k = "Content-Type" then some "application/octet-stream" else none) := by
  constructor
  · intro k
    unfold finalDownloadHeaders
    rw [hGet_hMerge _ _ _ hnd]
    cases hGet p.downloadHeaders k with
    | some v => rfl
    | none =>
        dsimp only
        by_cases hk : k = "Accept"
        · simp [hGet, hk]
        · simp [hGet, hk, Ne.symm hk]
  · intro k
    unfold baseUploadHeaders
    rw [hGet_hMerge _ _ _ hnu]
    cases hGet p.uploadHeaders k with
    | some v => rfl
    | none =>
        dsimp only
        by_cases hk : k = "Content-Type"
        · simp [hGet, hk]
        · simp [hGet, hk, Ne.symm hk]

/-- Witness for the amended C5: an exactly matching user `Accept` header
overrides the default; a missing key yields the default. -/
theorem c5_amended_exact_key_merge_witness :
    hGet (finalDownloadHeaders { pBase with downloadHeaders := [("Accept", "text/plain")] })
      "Accept" = some "text/plain" ∧
    hGet (baseUploadHeaders { pBase with downloadHeaders := [("Accept", "text/plain")] })
      "Content-Type" = some "application/octet-stream" := by
  have h := c5_amended_exact_key_merge
    { pBase with downloadHeaders := [("Accept", "text/plain")] }
    (by decide) (by decide)
  exact ⟨(h.1 "Accept").trans (by decide), (h.2 "Content-Type").trans (by decide)⟩
